import Mathlib

/-!
Shallow embedding of `localstack-backup.py`, a Python script that backs up
and restores the state of a LocalStack environment (S3, SQS, SNS) through
six pickle files written in the working directory.

The emulated services are modelled as explicit state values; each backup /
restore routine of the script is translated into a Lean function over that
state which also threads the on-disk snapshot files (`Disk`) and reports
uncaught Python exceptions as `Option PyError` / `Except PyError`.

Modelling choices for the external boto3 APIs (the service side, not the
script):
* `list_objects` returns a response whose `Contents` field is absent when
  the bucket holds no objects (real S3 / LocalStack behaviour), modelled as
  `Option`; indexing the absent field raises `KeyError 'Contents'`.
* `list_queues` / `list_topics` are modelled as always returning the
  (possibly empty) list of URLs / topic ARNs.
* `receive_message` returns the queue head together with a receipt handle
  (its position); `delete_message` removes the handled message.  A queue
  with no available message yields a response without `Messages`, so
  indexing it raises `KeyError 'Messages'`.
* SNS subscription attribute dictionaries are modelled as Python-like
  string/dict values (`PyVal`), since the script probes nested shapes.
-/

/-- Uncaught Python exceptions that the script can raise. -/
inductive PyError where
  | keyError (key : String)
  | typeError (msg : String)
  | attributeError (attr : String)
  | fileNotFound (file : String)
  | clientError (code : String)
deriving DecidableEq, Repr

/-- One entry of `s3_objects.pickle`: the dict
`{'bucket_name': ..., 'object_key': ..., 'object_body': ...}` built by
`backup_s3`.  The body is raw bytes. -/
structure ObjRecord where
  bucket_name : String
  object_key : String
  object_body : List Nat
deriving DecidableEq, Repr

/-- One entry of `sqs_messages.pickle`: the dict
`{"queue": queue_url, "body": message_body}` built by `backup_sqs`. -/
structure MsgRecord where
  queue : String
  body : String
deriving DecidableEq, Repr

/-- A Python value as far as the SNS code inspects one: a string or a
string-keyed dictionary. -/
inductive PyVal where
  | str (s : String)
  | dict (d : List (String × PyVal))

/-- A Python dictionary with string keys, as an association list
(insertion order preserved, first binding wins on lookup). -/
abbrev SubDict := List (String × PyVal)

/-- The six pickle files the script reads and writes, in its working
directory.  `none` means the file has not been written / does not exist. -/
structure Disk where
  s3_buckets : Option (List String) := none
  s3_objects : Option (List ObjRecord) := none
  sqs_queues : Option (List String) := none
  sqs_messages : Option (List MsgRecord) := none
  sns_topics : Option (List String) := none
  sns_subs : Option (List SubDict) := none

/-- The empty working directory, before any backup has run. -/
def Disk.empty : Disk := {}

/-! ## Python string primitives

Executable embeddings of the Python string operations the script uses,
defined structurally over the character list of a `String`. -/

/-- Python `s.split(sep)` for a one-character separator: splits on every
occurrence, keeping empty segments, and is `[s]` when the separator does
not occur. -/
def pySplit (s : String) (sep : Char) : List String :=
  (s.data.splitOn sep).map (fun cs => String.mk cs)

/-- Python `s.split(sep)[-1]`: the segment after the last separator
(`split` never returns an empty list). -/
def pyLastSegment (s : String) (sep : Char) : String :=
  (pySplit s sep).getLastD ""

/-- Python `s.endswith(suffix)`. -/
def pyEndsWith (s suffix : String) : Bool :=
  suffix.data.isSuffixOf s.data

/-- Python `s.lower()` (ASCII lowercasing suffices for the script's
single-letter choices). -/
def pyLower (s : String) : String :=
  String.mk (s.data.map Char.toLower)

/-! ## S3 service model -/

/-- An object stored in a bucket: key and raw byte body. -/
structure S3Object where
  key : String
  body : List Nat
deriving DecidableEq, Repr

/-- A bucket: its name and its objects, in listing order. -/
structure S3Bucket where
  name : String
  objs : List S3Object
deriving DecidableEq, Repr

/-- The S3 service state: the buckets, in listing order. -/
abbrev S3State := List S3Bucket

/-- `s3.list_buckets()['Buckets'][i]['Name']`: the bucket names in listing
order. -/
def s3ListBuckets (s : S3State) : List String := s.map (·.name)

/-- `s3.list_objects(Bucket=b)`: the `Contents` field of the response.
The field is absent (`none`) when the bucket holds no objects; listing a
bucket that does not exist raises a client error. -/
def s3ListObjectsContents (s : S3State) (b : String) :
    Except PyError (Option (List S3Object)) :=
  match s.find? (fun bk => bk.name == b) with
  | none => .error (.clientError "NoSuchBucket")
  | some bk => .ok (if bk.objs.isEmpty then none else some bk.objs)

/-- `s3.get_object(Bucket=b, Key=k)['Body'].read()`: the body of the
object, or a client error when the bucket or key does not exist. -/
def s3GetObject (s : S3State) (b k : String) : Except PyError (List Nat) :=
  match s.find? (fun bk => bk.name == b) with
  | none => .error (.clientError "NoSuchBucket")
  | some bk =>
    match bk.objs.find? (fun o => o.key == k) with
    | none => .error (.clientError "NoSuchKey")
    | some o => .ok o.body

/-- `s3.create_bucket(Bucket=b)`: appends a fresh empty bucket; creating
an already-existing bucket in us-east-1 succeeds and leaves it unchanged. -/
def s3CreateBucket (s : S3State) (b : String) : S3State :=
  if s.any (fun bk => bk.name == b) then s else s ++ [⟨b, []⟩]

/-- Store body `v` under key `k`: overwrite an existing key, else append. -/
def s3PutKey (objs : List S3Object) (k : String) (v : List Nat) :
    List S3Object :=
  if objs.any (fun o => o.key == k) then
    objs.map (fun o => if o.key == k then ⟨k, v⟩ else o)
  else objs ++ [⟨k, v⟩]

/-- `s3.put_object(Bucket=b, Key=k, Body=v)`: stores the object in the
named bucket, or raises a client error when the bucket does not exist. -/
def s3PutObject (s : S3State) (b k : String) (v : List Nat) :
    Except PyError S3State :=
  if s.any (fun bk => bk.name == b) then
    .ok (s.map (fun bk =>
      if bk.name == b then ⟨bk.name, s3PutKey bk.objs k v⟩ else bk))
  else .error (.clientError "NoSuchBucket")

/-! ## `backup_s3` -/

/-- The inner object loop of `backup_s3` (lines 76-85): fetch every
object's body from bucket `nm`, accumulating the
`{bucket_name, object_key, object_body}` records in listing order. -/
def backupBucketObjects (s : S3State) (nm : String) :
    List S3Object → Except PyError (List ObjRecord)
  | [] => .ok []
  | o :: rest =>
    match s3GetObject s nm o.key with
    | .error e => .error e
    | .ok body =>
      match backupBucketObjects s nm rest with
      | .error e => .error e
      | .ok recs => .ok (⟨nm, o.key, body⟩ :: recs)

/-- The outer bucket loop of `backup_s3` (lines 71-85): for each bucket
of the listing, index `contents['Contents']` (raising `KeyError` when
the field is absent) and collect that bucket's records. -/
def collectS3Objects (s : S3State) : List S3Bucket → Except PyError (List ObjRecord)
  | [] => .ok []
  | bk :: rest =>
    match s3ListObjectsContents s bk.name with
    | .error e => .error e
    | .ok none => .error (.keyError "Contents")
    | .ok (some objs) =>
      match backupBucketObjects s bk.name objs with
      | .error e => .error e
      | .ok recs =>
        match collectS3Objects s rest with
        | .error e => .error e
        | .ok more => .ok (recs ++ more)

/-- `backup_s3` (lines 39-91): list the buckets, write the bucket-name
list to `s3_buckets.pickle` unconditionally, then fetch every object of
every bucket and write the record list to `s3_objects.pickle`.  An
exception raised in the object loop leaves `s3_objects.pickle` unwritten.
The boto3 client construction never raises, so the connect branch always
succeeds. -/
def backup_s3 (s : S3State) (d : Disk) : Disk × Option PyError :=
  let bucket_list := s3ListBuckets s
  let d1 := { d with s3_buckets := some bucket_list }
  match collectS3Objects s s with
  | .error e => (d1, some e)
  | .ok objects => ({ d1 with s3_objects := some objects }, none)

/-! ## `restore_s3` -/

/-- The object loop of `restore_s3` (lines 234-235): put each persisted
object back into its recorded bucket, in order, stopping at the first
uncaught exception. -/
def putObjects (s : S3State) : List ObjRecord → Except PyError S3State
  | [] => .ok s
  | r :: rest =>
    match s3PutObject s r.bucket_name r.object_key r.object_body with
    | .error e => .error e
    | .ok s1 => putObjects s1 rest

/-- `restore_s3` (lines 205-237): load `s3_buckets.pickle`; when the
bucket list is non-empty, create each bucket, then load
`s3_objects.pickle` and put each object back.  When the bucket list is
empty the object file is never even read.  A missing pickle file raises
`FileNotFoundError`. -/
def restore_s3 (d : Disk) (s : S3State) : Except PyError S3State :=
  match d.s3_buckets with
  | none => .error (.fileNotFound "s3_buckets.pickle")
  | some bucket_list =>
    if bucket_list.isEmpty then .ok s
    else
      let s1 := bucket_list.foldl s3CreateBucket s
      match d.s3_objects with
      | none => .error (.fileNotFound "s3_objects.pickle")
      | some object_list => putObjects s1 object_list

/-- Backup of one S3 environment followed by restore into an empty target
environment, the pipeline of `backup_s3` and `restore_s3` through the
working directory.  A backup fault aborts the run. -/
def s3Roundtrip (env : S3State) : Except PyError S3State :=
  match backup_s3 env Disk.empty with
  | (d, none) => restore_s3 d []
  | (_, some e) => .error e

/-! ## SQS service model -/

/-- A queue: its URL and its messages (bodies), front first. -/
structure SqsQueue where
  url : String
  messages : List String
deriving DecidableEq, Repr

/-- The SQS service state: the queues, in listing order. -/
abbrev SqsState := List SqsQueue

/-- `sqs.list_queues()['QueueUrls']`: the queue URLs in listing order
(LocalStack returns an empty list when there are no queues). -/
def sqsListQueues (s : SqsState) : List String := s.map (·.url)

/-- `sqs.get_queue_attributes(...)['Attributes']['ApproximateNumberOfMessages']`:
in this sequential model the approximate count is the exact count. -/
def sqsApproxCount (s : SqsState) (url : String) : Except PyError Nat :=
  match s.find? (fun q => q.url == url) with
  | none => .error (.clientError "NonExistentQueue")
  | some q => .ok q.messages.length

/-- `sqs.receive_message(QueueUrl=url, MaxNumberOfMessages=1)['Messages'][0]`:
the front message (its body; the receipt handle designates that message).
When no message is available the response has no `Messages` field, so
indexing it raises `KeyError`. -/
def sqsReceiveHead (s : SqsState) (url : String) : Except PyError String :=
  match s.find? (fun q => q.url == url) with
  | none => .error (.clientError "NonExistentQueue")
  | some q =>
    match q.messages with
    | [] => .error (.keyError "Messages")
    | m :: _ => .ok m

/-- `sqs.delete_message(QueueUrl=url, ReceiptHandle=...)` for the handle
just returned by `sqsReceiveHead`: removes the front message. -/
def sqsDeleteHead (s : SqsState) (url : String) : SqsState :=
  s.map (fun q => if q.url == url then ⟨q.url, q.messages.tail⟩ else q)

/-! ## `backup_sqs` -/

/-- The receive/record/delete loop of `backup_sqs` (lines 133-137), run
`n` times against one queue.  Returns the mutated service state, the
`{"queue": ..., "body": ...}` records in receive order, and the first
uncaught exception if any. -/
def drainQueue (s : SqsState) (url : String) :
    Nat → SqsState × List MsgRecord × Option PyError
  | 0 => (s, [], none)
  | n + 1 =>
    match sqsReceiveHead s url with
    | .error e => (s, [], some e)
    | .ok body =>
      let s1 := sqsDeleteHead s url
      let (s2, recs, err) := drainQueue s1 url n
      (s2, ⟨url, body⟩ :: recs, err)

/-- The outer queue loop of `backup_sqs` (lines 121-137): for each listed
queue URL, read the approximate message count and drain that many
messages.  (`if msg_count > 0` guards the inner loop; running it zero
times is the same.) -/
def processQueues (s : SqsState) :
    List String → SqsState × List MsgRecord × Option PyError
  | [] => (s, [], none)
  | url :: rest =>
    match sqsApproxCount s url with
    | .error e => (s, [], some e)
    | .ok msg_count =>
      match drainQueue s url msg_count with
      | (s1, recs, some e) => (s1, recs, some e)
      | (s1, recs, none) =>
        let (s2, more, err) := processQueues s1 rest
        (s2, recs ++ more, err)

/-- `backup_sqs` (lines 96-143): list the queues, write the URL list to
`sqs_queues.pickle` unconditionally, then destructively drain every queue
(each message is deleted right after it is read) and write the records to
`sqs_messages.pickle`.  An exception in the drain loop leaves
`sqs_messages.pickle` unwritten. -/
def backup_sqs (s : SqsState) (d : Disk) : SqsState × Disk × Option PyError :=
  let queueUrls := sqsListQueues s
  let d1 := { d with sqs_queues := some queueUrls }
  match processQueues s queueUrls with
  | (s1, _, some e) => (s1, d1, some e)
  | (s1, all_messages, none) =>
    (s1, { d1 with sqs_messages := some all_messages }, none)

/-! ## `restore_sqs` -/

/-- A service call issued by `restore_sqs`, with the arguments the script
passes. -/
inductive SqsCall where
  | createQueue (queueName : String) (attributes : List (String × String))
  | sendMessage (queueUrl body : String)
  | sendMessageFifo (queueUrl body messageGroupId messageDeduplicationId : String)
deriving DecidableEq, Repr

/-- Whether a call is a `create_queue` call. -/
def SqsCall.isCreate : SqsCall → Bool
  | .createQueue _ _ => true
  | _ => false

/-- `restore_sqs` (lines 241-298), as the sequence of service calls it
issues and the first uncaught exception.  Queue names are the last
`/`-separated segment of the URL (`queue.split("/")[-1]`); names ending in
`.fifo` are created as FIFO queues with content-based deduplication.
Messages are then re-sent to their recorded queue URL; `.fifo` URLs get
3-letter random group and deduplication ids, drawn here from the stream
`rand` (two draws per message, in argument order). -/
def restore_sqs (d : Disk) (rand : Nat → String) :
    List SqsCall × Option PyError :=
  match d.sqs_queues with
  | none => ([], some (.fileNotFound "sqs_queues.pickle"))
  | some queue_list =>
    let creates := queue_list.map (fun queue =>
      let queue_name := pyLastSegment queue '/'
      if pyEndsWith queue_name ".fifo" then
        SqsCall.createQueue queue_name
          [("FifoQueue", "true"), ("ContentBasedDeduplication", "true")]
      else SqsCall.createQueue queue_name [])
    match d.sqs_messages with
    | none => (creates, some (.fileNotFound "sqs_messages.pickle"))
    | some message_list =>
      let sends := message_list.enum.map (fun mi =>
        if pyEndsWith mi.2.queue ".fifo" then
          SqsCall.sendMessageFifo mi.2.queue mi.2.body
            (rand (2 * mi.1)) (rand (2 * mi.1 + 1))
        else SqsCall.sendMessage mi.2.queue mi.2.body)
      (creates ++ sends, none)

/-! ## SNS service model -/

/-- A topic: its ARN and its subscriptions, each a Python dict as
returned by `list_subscriptions_by_topic`. -/
structure SnsTopic where
  arn : String
  subs : List SubDict

/-- The SNS service state: the topics, in listing order. -/
abbrev SnsState := List SnsTopic

/-- `sns.list_topics()['Topics'][i]['TopicArn']`: the topic ARNs in
listing order (an empty list when there are no topics). -/
def snsListTopics (s : SnsState) : List String := s.map (·.arn)

/-- `sns.list_subscriptions_by_topic(TopicArn=t)['Subscriptions']`. -/
def snsListSubscriptionsByTopic (s : SnsState) (t : String) :
    Except PyError (List SubDict) :=
  match s.find? (fun tp => tp.arn == t) with
  | none => .error (.clientError "NotFound")
  | some tp => .ok tp.subs

/-! ## Python dictionary operations used by the SNS code -/

/-- `d[k]` on a dict: the value, or `KeyError` when the key is absent. -/
def dictGet (d : SubDict) (k : String) : Except PyError PyVal :=
  match d.lookup k with
  | none => .error (.keyError k)
  | some v => .ok v

/-- `k in v`: key membership on a dict; on a string, Python's substring
membership. -/
def pyIn (k : String) (v : PyVal) : Bool :=
  match v with
  | .dict d => (d.lookup k).isSome
  | .str s => decide (k.data <:+: s.data)

/-- `v[k]` on an arbitrary value: dict indexing, or `TypeError` when `v`
is a string (string indices must be integers). -/
def pyGet (v : PyVal) (k : String) : Except PyError PyVal :=
  match v with
  | .dict d => dictGet d k
  | .str _ => .error (.typeError "string indices must be integers")

/-- `a + v` for a string literal `a`: string concatenation, or
`TypeError` when `v` is not a string. -/
def pyAddStr (a : String) (v : PyVal) : Except PyError String :=
  match v with
  | .str s => .ok (a ++ s)
  | .dict _ => .error (.typeError "can only concatenate str")

/-! ## `backup_sns` -/

/-- The per-subscription record of `backup_sns` (lines 179-186): the dict
`{"topicARN": ..., "subARN": ..., "protocol": ..., "endpoint": ...}`,
extended with `DLQARN` when `'RawMessageDelivery' in subscription and
'RedrivePolicy' in subscription['RawMessageDelivery']` holds, taking
`subscription['RawMessageDelivery']['RedrivePolicy']['deadLetterTargetArn']`. -/
def mkSubRecord (topic : String) (subscription : SubDict) :
    Except PyError SubDict :=
  match dictGet subscription "SubscriptionArn" with
  | .error e => .error e
  | .ok subArn =>
    match dictGet subscription "Protocol" with
    | .error e => .error e
    | .ok protocol =>
      match dictGet subscription "Endpoint" with
      | .error e => .error e
      | .ok endpoint =>
        let this_sub : SubDict :=
          [("topicARN", .str topic), ("subARN", subArn),
           ("protocol", protocol), ("endpoint", endpoint)]
        match subscription.lookup "RawMessageDelivery" with
        | some rmd =>
          if pyIn "RedrivePolicy" rmd then
            match pyGet rmd "RedrivePolicy" with
            | .error e => .error e
            | .ok redrive_policy =>
              match pyGet redrive_policy "deadLetterTargetArn" with
              | .error e => .error e
              | .ok dlq => .ok (this_sub ++ [("DLQARN", dlq)])
          else .ok this_sub
        | none => .ok this_sub

/-- The inner subscription loop of `backup_sns` (lines 178-186): build a
record per subscription of one topic, in order. -/
def backupTopicSubs (topic : String) : List SubDict → Except PyError (List SubDict)
  | [] => .ok []
  | sub :: rest =>
    match mkSubRecord topic sub with
    | .error e => .error e
    | .ok rec =>
      match backupTopicSubs topic rest with
      | .error e => .error e
      | .ok recs => .ok (rec :: recs)

/-- The topic loop of `backup_sns` (lines 175-186): for each topic ARN,
list its subscriptions and build the records, in order. -/
def collectSubRecords (s : SnsState) :
    List String → Except PyError (List SubDict)
  | [] => .ok []
  | t :: rest =>
    match snsListSubscriptionsByTopic s t with
    | .error e => .error e
    | .ok subs =>
      match backupTopicSubs t subs with
      | .error e => .error e
      | .ok recs =>
        match collectSubRecords s rest with
        | .error e => .error e
        | .ok more => .ok (recs ++ more)

/-- `backup_sns` (lines 149-192): list the topics; when there is at least
one, write the ARN list to `sns_topics.pickle`, build the subscription
records and write them to `sns_subs.pickle`.  When there are zero topics
neither file is written. -/
def backup_sns (s : SnsState) (d : Disk) : Disk × Option PyError :=
  let topics := snsListTopics s
  if topics.length > 0 then
    let d1 := { d with sns_topics := some topics }
    match collectSubRecords s topics with
    | .error e => (d1, some e)
    | .ok subscription_list => ({ d1 with sns_subs := some subscription_list }, none)
  else (d, none)

/-! ## `restore_sns` -/

/-- A service call issued by `restore_sns`, with the arguments the script
passes (`subscribe` carries the looked-up dict values and the optional
`Attributes` entry). -/
inductive SnsCall where
  | createTopic (topicName : String)
  | subscribe (topicArn protocol endpoint : PyVal)
      (attributes : Option (String × String))

/-- `restore_sns` (lines 304-347), as the sequence of service calls it
issues and the first uncaught exception.  Topic names are the last
`:`-separated segment of the ARN.  The subscription loop's first
statement is `subscription.has_key("DLQARN")`; Python 3 dicts have no
`has_key` method, so the first iteration raises `AttributeError` before
any subscribe call is issued. -/
def restore_sns (d : Disk) : List SnsCall × Option PyError :=
  match d.sns_topics with
  | none => ([], some (.fileNotFound "sns_topics.pickle"))
  | some topic_list =>
    let creates := topic_list.map (fun topic =>
      SnsCall.createTopic (pyLastSegment topic ':'))
    match d.sns_subs with
    | none => (creates, some (.fileNotFound "sns_subs.pickle"))
    | some subscriptions =>
      match subscriptions with
      | [] => (creates, none)
      | _ :: _ => (creates, some (.attributeError "has_key"))

/-- One iteration of the subscription loop of `restore_sns`
(lines 330-346) with the invalid `subscription.has_key("DLQARN")` probe
replaced by the dict membership test `"DLQARN" in subscription` — the
repair hypothesised by the spec.  Keyword arguments are evaluated
left-to-right, so `subscription['TopicARN']` is read first in both
branches. -/
def subscribeCall (subscription : SubDict) : Except PyError SnsCall :=
  if (subscription.lookup "DLQARN").isSome then
    match dictGet subscription "TopicARN" with
    | .error e => .error e
    | .ok topicArn =>
      match dictGet subscription "Protocol" with
      | .error e => .error e
      | .ok protocol =>
        match dictGet subscription "Endpoint" with
        | .error e => .error e
        | .ok endpoint =>
          match dictGet subscription "DLQARN" with
          | .error e => .error e
          | .ok dlq =>
            match pyAddStr "\x7b \"deadLetterTargetArn\": \"" dlq with
            | .error e => .error e
            | .ok policy =>
              .ok (.subscribe topicArn protocol endpoint
                (some ("RedrivePolicy",
                  policy ++ "\", \"maxReceiveCount\": \"5\"\x7d")))
  else
    match dictGet subscription "TopicARN" with
    | .error e => .error e
    | .ok topicArn =>
      match dictGet subscription "Protocol" with
      | .error e => .error e
      | .ok protocol =>
        match dictGet subscription "Endpoint" with
        | .error e => .error e
        | .ok endpoint => .ok (.subscribe topicArn protocol endpoint none)

/-- The subscription loop of `restore_sns` with the repaired membership
test: issues one subscribe call per record until the first uncaught
exception. -/
def subscribeLoop : List SubDict → List SnsCall × Option PyError
  | [] => ([], none)
  | sub :: rest =>
    match subscribeCall sub with
    | .error e => ([], some e)
    | .ok c =>
      let (cs, err) := subscribeLoop rest
      (c :: cs, err)

/-- `restore_sns` with the single repair of the membership test
(`has_key` replaced by `in`); everything else is unchanged from
`restore_sns`. -/
def restore_sns_fixed (d : Disk) : List SnsCall × Option PyError :=
  match d.sns_topics with
  | none => ([], some (.fileNotFound "sns_topics.pickle"))
  | some topic_list =>
    let creates := topic_list.map (fun topic =>
      SnsCall.createTopic (pyLastSegment topic ':'))
    match d.sns_subs with
    | none => (creates, some (.fileNotFound "sns_subs.pickle"))
    | some subscriptions =>
      let (subCalls, err) := subscribeLoop subscriptions
      (creates ++ subCalls, err)

/-! ## Orchestrator and entry point -/

/-- The whole emulated environment: the three service states. -/
structure Env where
  s3 : S3State
  sqs : SqsState
  sns : SnsState

/-- `backup()` (lines 197-200): run the three service backups in order.
An uncaught exception propagates out of `backup()`, so the remaining
steps do not run. -/
def backup (e : Env) (d : Disk) : Env × Disk × Option PyError :=
  match backup_s3 e.s3 d with
  | (d1, some err) => (e, d1, some err)
  | (d1, none) =>
    match backup_sqs e.sqs d1 with
    | (sqs1, d2, some err) => ({ e with sqs := sqs1 }, d2, some err)
    | (sqs1, d2, none) =>
      let (d3, err) := backup_sns e.sns d2
      ({ e with sqs := sqs1 }, d3, err)

/-- Which top-level operation `main` runs. -/
inductive MainAction where
  | backup
  | restore
deriving DecidableEq, Repr

/-- `main` (lines 362-376), reduced to its dispatch on the entered
choice: which of `backup()` / `restore()` runs, and what is printed
besides the fixed banner and farewell lines.  The choice is lowercased
and then compared against `["b", "r"]`. -/
def mainDispatch (input : String) : Option MainAction × List String :=
  let choice := pyLower input
  if !(["b", "r"].contains choice) then
    (none, ["\n***Invalid choice - exiting***"])
  else if choice == "b" then (some .backup, [])
  else (some .restore, [])

/-! ## General helper lemmas -/

/-- `find?` by a string-valued key returns a member itself when the keys
are pairwise distinct. -/
theorem find_self_of_nodup {α : Type} (f : α → String) (l : List α)
    (hnd : (l.map f).Nodup) (x : α) (hx : x ∈ l) :
    l.find? (fun y => f y == f x) = some x := by
  induction l with
  | nil => cases hx
  | cons a t ih =>
    rw [List.map_cons, List.nodup_cons] at hnd
    rcases List.mem_cons.mp hx with rfl | hx
    · rw [List.find?_cons_of_pos _ (by simp)]
    · have hne : (f a == f x) = false := by
        rw [beq_eq_false_iff_ne]
        intro hfa
        exact hnd.1 (by rw [hfa]; exact List.mem_map_of_mem f hx)
      simp only [List.find?_cons, hne]
      exact ih hnd.2 hx

/-! ## Claim theorems: empty environment, empty bucket list, CLI, broken has_key -/

/-- C4: backing up an environment with zero buckets, zero queues and zero
topics does not fault; the bucket, object, queue and message snapshot
files are written containing empty sequences, while the topic and
subscription snapshot files are not written at all. -/
theorem backup_empty_env_writes_empty_snapshots :
    backup ⟨[], [], []⟩ Disk.empty =
      (⟨[], [], []⟩,
       { s3_buckets := some [], s3_objects := some [],
         sqs_queues := some [], sqs_messages := some [],
         sns_topics := none, sns_subs := none }, none) := rfl

/-- C5: when the persisted bucket-name sequence is empty, `restore_s3`
restores no objects and leaves the target environment unchanged, even
when the persisted object sequence is non-empty (the object-restore loop
is only reached when the bucket list is non-empty). -/
theorem restore_s3_skips_objects_on_empty_bucket_list (d : Disk)
    (s : S3State) (objects : List ObjRecord) (hb : d.s3_buckets = some [])
    (ho : d.s3_objects = some objects) (hne : objects ≠ []) :
    restore_s3 d s = .ok s := by
  unfold restore_s3
  rw [hb]
  simp

/-- Witness for C5 at a disk whose object file holds one record. -/
theorem restore_s3_skips_objects_on_empty_bucket_list_witness :
    restore_s3 { s3_buckets := some [], s3_objects := some [⟨"b", "k", [1]⟩] } []
      = .ok [] :=
  restore_s3_skips_objects_on_empty_bucket_list _ _ [⟨"b", "k", [1]⟩] rfl rfl
    (by simp)

/-- C8: any interactive input whose lowercased form is neither `"b"` nor
`"r"` makes `main` print the invalid-choice message and dispatch no
backup or restore action. -/
theorem main_invalid_choice (input : String)
    (hb : pyLower input ≠ "b") (hr : pyLower input ≠ "r") :
    mainDispatch input = (none, ["\n***Invalid choice - exiting***"]) := by
  have hb' : (pyLower input == "b") = false := beq_eq_false_iff_ne.mpr hb
  have hr' : (pyLower input == "r") = false := beq_eq_false_iff_ne.mpr hr
  simp [mainDispatch, List.contains, List.elem, hb', hr']

/-- Witness for C8 at the input `"x"`. -/
theorem main_invalid_choice_witness :
    mainDispatch "x" = (none, ["\n***Invalid choice - exiting***"]) :=
  main_invalid_choice "x" (by decide) (by decide)

/-- C3: whenever the persisted subscription snapshot is non-empty,
`restore_sns` raises an uncaught runtime error at the
`subscription.has_key("DLQARN")` probe (Python 3 dicts have no `has_key`
method), so every restore run with at least one subscription faults. -/
theorem restore_sns_faults_on_any_subscription (d : Disk)
    (topics : List String) (subs : List SubDict)
    (ht : d.sns_topics = some topics) (hs : d.sns_subs = some subs)
    (hne : subs ≠ []) :
    (restore_sns d).2 = some (.attributeError "has_key") := by
  cases subs with
  | nil => exact absurd rfl hne
  | cons a l => simp [restore_sns, ht, hs]

/-- Witness for C3 at a one-subscription snapshot. -/
theorem restore_sns_faults_on_any_subscription_witness :
    (restore_sns
      { sns_topics := some ["arn:aws:sns:us-east-1:000000000000:t"],
        sns_subs := some [[("topicARN", PyVal.str "x")]] }).2
      = some (.attributeError "has_key") :=
  restore_sns_faults_on_any_subscription _
    ["arn:aws:sns:us-east-1:000000000000:t"] [[("topicARN", PyVal.str "x")]]
    rfl rfl (by simp)

/-! ## Claim theorems: backup_s3 on an empty bucket -/

/-- Each listed object of a bucket that `find?` resolves can be fetched. -/
theorem s3GetObject_isOk_of_mem (s : S3State) (bk : S3Bucket)
    (hfind : s.find? (fun y => y.name == bk.name) = some bk)
    (o : S3Object) (ho : o ∈ bk.objs) :
    ∃ b, s3GetObject s bk.name o.key = .ok b := by
  have hsome : (bk.objs.find? (fun y => y.key == o.key)).isSome := by
    rw [List.find?_isSome]
    exact ⟨o, ho, by simp⟩
  obtain ⟨o', ho'⟩ := Option.isSome_iff_exists.mp hsome
  refine ⟨o'.body, ?_⟩
  unfold s3GetObject
  rw [hfind]
  simp only [ho']

/-- The inner object loop succeeds when each fetch succeeds. -/
theorem backupBucketObjects_isOk (s : S3State) (nm : String)
    (objs : List S3Object)
    (h : ∀ o ∈ objs, ∃ b, s3GetObject s nm o.key = .ok b) :
    ∃ recs, backupBucketObjects s nm objs = .ok recs := by
  induction objs with
  | nil => exact ⟨[], rfl⟩
  | cons o t ih =>
    obtain ⟨b, hb⟩ := h o (List.mem_cons_self o t)
    obtain ⟨recs, hrecs⟩ := ih (fun x hx => h x (List.mem_cons_of_mem _ hx))
    refine ⟨⟨nm, o.key, b⟩ :: recs, ?_⟩
    unfold backupBucketObjects
    rw [hb, hrecs]

/-- The bucket loop of `backup_s3` raises `KeyError 'Contents'` as soon
as it meets a bucket with no objects. -/
theorem collectS3Objects_error_of_empty (s : S3State)
    (hnd : (s.map S3Bucket.name).Nodup) (bs : List S3Bucket)
    (hsub : ∀ bk ∈ bs, bk ∈ s) (hex : ∃ bk ∈ bs, bk.objs = []) :
    collectS3Objects s bs = .error (.keyError "Contents") := by
  induction bs with
  | nil => obtain ⟨bk, h, _⟩ := hex; cases h
  | cons b t ih =>
    have hb_mem : b ∈ s := hsub b (List.mem_cons_self b t)
    have hfind : s.find? (fun y => y.name == b.name) = some b :=
      find_self_of_nodup S3Bucket.name s hnd b hb_mem
    by_cases hb : b.objs = []
    · unfold collectS3Objects s3ListObjectsContents
      rw [hfind]
      simp [hb]
    · obtain ⟨bk, hbk, hbke⟩ := hex
      have hbk_t : bk ∈ t := by
        rcases List.mem_cons.mp hbk with rfl | h
        · exact absurd hbke hb
        · exact h
      have hrest : collectS3Objects s t = .error (.keyError "Contents") :=
        ih (fun x hx => hsub x (List.mem_cons_of_mem _ hx)) ⟨bk, hbk_t, hbke⟩
      obtain ⟨recs, hrecs⟩ := backupBucketObjects_isOk s b.name b.objs
        (fun o ho => s3GetObject_isOk_of_mem s b hfind o ho)
      have hne2 : b.objs.isEmpty = false := by
        cases hobjs : b.objs with
        | nil => exact absurd hobjs hb
        | cons x xs => rfl
      unfold collectS3Objects s3ListObjectsContents
      rw [hfind]
      simp only [hne2, Bool.false_eq_true, if_false, hrecs, hrest]

/-- C10: on any environment containing a bucket with zero objects,
`backup_s3` raises an uncaught `KeyError 'Contents'` (the per-bucket
object loop indexes the absent `Contents` field), the run terminates,
and the object snapshot file is left unwritten (the bucket file has
already been written). -/
theorem backup_s3_faults_on_empty_bucket (s : S3State) (d : Disk)
    (hnd : (s.map S3Bucket.name).Nodup) (hex : ∃ bk ∈ s, bk.objs = []) :
    backup_s3 s d =
      ({ d with s3_buckets := some (s3ListBuckets s) },
       some (.keyError "Contents")) := by
  unfold backup_s3
  rw [collectS3Objects_error_of_empty s hnd s (fun _ h => h) hex]

/-- Witness for C10 at an environment with one empty bucket. -/
theorem backup_s3_faults_on_empty_bucket_witness :
    backup_s3 [⟨"b", []⟩] Disk.empty =
      ({ Disk.empty with s3_buckets := some ["b"] },
       some (.keyError "Contents")) :=
  backup_s3_faults_on_empty_bucket [⟨"b", []⟩] Disk.empty (by decide)
    ⟨⟨"b", []⟩, by decide, rfl⟩

/-! ## Claim theorems: restore_sqs queue creation -/

/-- C7: for every queue URL in the persisted queue sequence,
`restore_sqs` creates a queue named by the final path segment of the URL,
with `FifoQueue` and `ContentBasedDeduplication` set to `'true'` exactly
when that name ends in `.fifo` and with no attributes otherwise; these
are the only `create_queue` calls, in listing order. -/
theorem restore_sqs_create_calls (d : Disk) (rand : Nat → String)
    (urls : List String) (h : d.sqs_queues = some urls) :
    ((restore_sqs d rand).1.filter SqsCall.isCreate) =
      urls.map (fun u =>
        SqsCall.createQueue (pyLastSegment u '/')
          (if pyEndsWith (pyLastSegment u '/') ".fifo" then
            [("FifoQueue", "true"), ("ContentBasedDeduplication", "true")]
          else [])) := by
  have key : ∀ (l : List String),
      (l.map (fun queue =>
        let queue_name := pyLastSegment queue '/'
        if pyEndsWith queue_name ".fifo" then
          SqsCall.createQueue queue_name
            [("FifoQueue", "true"), ("ContentBasedDeduplication", "true")]
        else SqsCall.createQueue queue_name [])).filter SqsCall.isCreate =
      l.map (fun u =>
        SqsCall.createQueue (pyLastSegment u '/')
          (if pyEndsWith (pyLastSegment u '/') ".fifo" then
            [("FifoQueue", "true"), ("ContentBasedDeduplication", "true")]
          else [])) := by
    intro l
    induction l with
    | nil => rfl
    | cons u t ih =>
      simp only [List.map_cons, List.filter_cons]
      by_cases hf : pyEndsWith (pyLastSegment u '/') ".fifo"
      · simp [hf, SqsCall.isCreate, ih]
      · simp [hf, SqsCall.isCreate, ih]
  have sendsKey : ∀ (ms : List (Nat × MsgRecord)),
      (ms.map (fun mi =>
        if pyEndsWith mi.2.queue ".fifo" then
          SqsCall.sendMessageFifo mi.2.queue mi.2.body
            (rand (2 * mi.1)) (rand (2 * mi.1 + 1))
        else SqsCall.sendMessage mi.2.queue mi.2.body)).filter
          SqsCall.isCreate = [] := by
    intro ms
    induction ms with
    | nil => rfl
    | cons mi t ih =>
      simp only [List.map_cons, List.filter_cons]
      by_cases hf : pyEndsWith mi.2.queue ".fifo"
      · simp [hf, SqsCall.isCreate, ih]
      · simp [hf, SqsCall.isCreate, ih]
  unfold restore_sqs
  rw [h]
  cases hm : d.sqs_messages with
  | none => simpa using key urls
  | some msgs =>
    simp only
    rw [List.filter_append, key urls, sendsKey msgs.enum, List.append_nil]

/-- Witness for C7 at a two-queue snapshot (one standard, one FIFO) with
a non-empty message file. -/
theorem restore_sqs_create_calls_witness :
    ((restore_sqs
      { sqs_queues := some ["http://localhost:4566/000000000000/q1",
          "http://localhost:4566/000000000000/q2.fifo"],
        sqs_messages := some [⟨"http://localhost:4566/000000000000/q1", "m"⟩] }
      (fun _ => "xyz")).1.filter SqsCall.isCreate) =
      [SqsCall.createQueue "q1" [],
       SqsCall.createQueue "q2.fifo"
         [("FifoQueue", "true"), ("ContentBasedDeduplication", "true")]] :=
  restore_sqs_create_calls _ _
    ["http://localhost:4566/000000000000/q1",
     "http://localhost:4566/000000000000/q2.fifo"] rfl

/-! ## Claim theorems: backup_sqs drains every queue -/

/-- A generic identity-map lemma for lists whose elements the function
fixes. -/
theorem list_map_id {α : Type} (f : α → α) (l : List α)
    (h : ∀ x ∈ l, f x = x) : l.map f = l := by
  induction l with
  | nil => rfl
  | cons a t ih =>
    rw [List.map_cons, h a (List.mem_cons_self a t),
      ih (fun x hx => h x (List.mem_cons_of_mem _ hx))]

/-- `find?` lands on the first element after a prefix the predicate
rejects. -/
theorem find_append_first {α : Type} (p : α → Bool) (pre : List α) (x : α)
    (post : List α) (hpre : ∀ q ∈ pre, p q = false) (hx : p x = true) :
    (pre ++ x :: post).find? p = some x := by
  induction pre with
  | nil => simp only [List.nil_append, List.find?_cons, hx]
  | cons a t ih =>
    have ha : p a = false := hpre a (List.mem_cons_self a t)
    simp only [List.cons_append, List.find?_cons, ha]
    exact ih (fun q hq => hpre q (List.mem_cons_of_mem _ hq))

/-- Draining a queue of its full message count empties exactly that
queue and records every message in order. -/
theorem drainQueue_spec (url : String) :
    ∀ (msgs : List String) (pre post : SqsState),
      (∀ q ∈ pre, (q.url == url) = false) →
      (∀ q ∈ post, (q.url == url) = false) →
      drainQueue (pre ++ ⟨url, msgs⟩ :: post) url msgs.length =
        (pre ++ ⟨url, []⟩ :: post, msgs.map (fun m => ⟨url, m⟩), none) := by
  intro msgs
  induction msgs with
  | nil => intro pre post _ _; rfl
  | cons m ms ih =>
    intro pre post hpre hpost
    have hfind :
        (pre ++ ⟨url, m :: ms⟩ :: post).find? (fun q => q.url == url) =
          some ⟨url, m :: ms⟩ :=
      find_append_first _ pre _ post hpre (by simp)
    have hrecv : sqsReceiveHead (pre ++ ⟨url, m :: ms⟩ :: post) url = .ok m := by
      unfold sqsReceiveHead
      rw [hfind]
    have hdel :
        sqsDeleteHead (pre ++ ⟨url, m :: ms⟩ :: post) url =
          pre ++ ⟨url, ms⟩ :: post := by
      unfold sqsDeleteHead
      rw [List.map_append, List.map_cons]
      rw [list_map_id _ pre (fun q hq => by simp [hpre q hq]),
        list_map_id _ post (fun q hq => by simp [hpost q hq])]
      simp
    simp only [List.length_cons]
    unfold drainQueue
    simp only [hrecv, hdel, ih pre post hpre hpost, List.map_cons]

/-- The queue loop of `backup_sqs` empties every processed queue and
accumulates all their messages, bucket by bucket, when queue URLs are
pairwise distinct. -/
theorem processQueues_spec :
    ∀ (todo done : SqsState),
      (((done ++ todo).map SqsQueue.url).Nodup) →
      processQueues (done ++ todo) (todo.map SqsQueue.url) =
        (done ++ todo.map (fun q => ⟨q.url, []⟩),
         todo.flatMap (fun q => q.messages.map (fun m => ⟨q.url, m⟩)),
         none) := by
  intro todo
  induction todo with
  | nil => intro done _; simp [processQueues]
  | cons q t ih =>
    intro done hnd
    obtain ⟨u, msgs⟩ := q
    rw [List.map_append, List.map_cons] at hnd
    rw [List.nodup_append] at hnd
    obtain ⟨hd1, hd2, hdisj⟩ := hnd
    rw [List.nodup_cons] at hd2
    have hpre : ∀ x ∈ done, (x.url == u) = false := by
      intro x hx
      rw [beq_eq_false_iff_ne]
      intro hxe
      exact hdisj (List.mem_map.mpr ⟨x, hx, rfl⟩)
        (by rw [hxe]; exact List.mem_cons_self _ _)
    have hpost : ∀ x ∈ t, (x.url == u) = false := by
      intro x hx
      rw [beq_eq_false_iff_ne]
      intro hxe
      exact hd2.1 (by rw [← hxe]; exact List.mem_map.mpr ⟨x, hx, rfl⟩)
    have hfind :
        (done ++ (⟨u, msgs⟩ : SqsQueue) :: t).find? (fun x => x.url == u) =
          some ⟨u, msgs⟩ :=
      find_append_first _ done _ t hpre (by simp)
    have hcount :
        sqsApproxCount (done ++ (⟨u, msgs⟩ : SqsQueue) :: t) u = .ok msgs.length := by
      unfold sqsApproxCount
      rw [hfind]
    have hdrain := drainQueue_spec u msgs done t hpre hpost
    have hnd' : (((done ++ [(⟨u, []⟩ : SqsQueue)]) ++ t).map SqsQueue.url).Nodup := by
      rw [List.append_assoc, List.singleton_append, List.map_append,
        List.map_cons, List.nodup_append, List.nodup_cons]
      exact ⟨hd1, ⟨hd2.1, hd2.2⟩, fun a ha hb => hdisj ha hb⟩
    have hrec := ih (done ++ [(⟨u, []⟩ : SqsQueue)]) hnd'
    rw [List.append_assoc, List.singleton_append] at hrec
    simp only [List.map_cons]
    unfold processQueues
    simp only [hcount, hdrain, hrec, List.append_assoc, List.singleton_append,
      List.flatMap_cons, List.append_nil]

/-- `backup_sqs` on pairwise-distinct queue URLs: the snapshot it
writes and the drained end state. -/
theorem backup_sqs_eq (s : SqsState) (d : Disk)
    (hnd : (s.map SqsQueue.url).Nodup) :
    backup_sqs s d =
      (s.map (fun q => ⟨q.url, []⟩),
       { d with
          sqs_queues := some (s.map SqsQueue.url),
          sqs_messages :=
            some (s.flatMap (fun q => q.messages.map (fun m => ⟨q.url, m⟩))) },
       none) := by
  have h := processQueues_spec s [] (by simpa using hnd)
  have h2 : processQueues s (s.map fun x => x.url) =
      ([] ++ s.map (fun q => ⟨q.url, []⟩),
       s.flatMap (fun q => q.messages.map (fun m => ⟨q.url, m⟩)), none) := h
  unfold backup_sqs sqsListQueues
  simp only [h2, List.nil_append]

/-- A drained environment yields no message records. -/
theorem flatMap_emptied_eq_nil (s : SqsState) :
    (s.map (fun q => (⟨q.url, []⟩ : SqsQueue))).flatMap
      (fun q => q.messages.map (fun m => (⟨q.url, m⟩ : MsgRecord))) = [] := by
  induction s with
  | nil => rfl
  | cons a t ih => simp [ih]

/-- C2: after `backup_sqs` runs on an environment whose queue URLs are
pairwise distinct, every source queue contains 0 messages (each message
is deleted from the queue right after it is read), the run faults
nowhere, and a second `backup_sqs` run on the drained environment
captures an empty message list. -/
theorem backup_sqs_drains_queues (s : SqsState) (d : Disk)
    (hnd : (s.map SqsQueue.url).Nodup) :
    (∀ q ∈ (backup_sqs s d).1, q.messages = []) ∧
    (backup_sqs s d).2.2 = none ∧
    (backup_sqs (backup_sqs s d).1 (backup_sqs s d).2.1).2.1.sqs_messages =
      some [] := by
  have h1 := backup_sqs_eq s d hnd
  have hnd' :
      (((s.map (fun q => (⟨q.url, []⟩ : SqsQueue)))).map SqsQueue.url).Nodup := by
    rw [List.map_map]
    simpa using hnd
  have hz := flatMap_emptied_eq_nil s
  rw [h1]
  refine ⟨?_, rfl, ?_⟩
  · intro q hq
    obtain ⟨q0, _, rfl⟩ := List.mem_map.mp hq
    rfl
  · rw [backup_sqs_eq _ _ hnd']
    simp only [hz]

/-- Witness for C2 at a one-queue environment holding two messages. -/
theorem backup_sqs_drains_queues_witness :
    (∀ q ∈ (backup_sqs [⟨"u", ["m1", "m2"]⟩] Disk.empty).1, q.messages = []) ∧
    (backup_sqs [⟨"u", ["m1", "m2"]⟩] Disk.empty).2.2 = none ∧
    (backup_sqs (backup_sqs [⟨"u", ["m1", "m2"]⟩] Disk.empty).1
      (backup_sqs [⟨"u", ["m1", "m2"]⟩] Disk.empty).2.1).2.1.sqs_messages =
      some [] :=
  backup_sqs_drains_queues [⟨"u", ["m1", "m2"]⟩] Disk.empty (by decide)

/-! ## Claim theorems: backup_sns DLQ capture condition -/

/-- The exact nested shape `backup_sns` probes for: a
`RawMessageDelivery` attribute that is a dict containing a
`RedrivePolicy` key. -/
def hasNestedRedrive (subscription : SubDict) : Prop :=
  ∃ rmd rp, subscription.lookup "RawMessageDelivery" = some (.dict rmd) ∧
    rmd.lookup "RedrivePolicy" = some rp

/-- Well-formedness of a subscription dict for the DLQ probe: a present
`RawMessageDelivery` string does not contain `RedrivePolicy` as a
substring, and a present nested `RedrivePolicy` is a dict carrying
`deadLetterTargetArn`. -/
def SubWF (subscription : SubDict) : Prop :=
  (∀ s, subscription.lookup "RawMessageDelivery" = some (.str s) →
    ¬ ("RedrivePolicy".data <:+: s.data)) ∧
  (∀ rmd, subscription.lookup "RawMessageDelivery" = some (.dict rmd) →
    (∀ s, rmd.lookup "RedrivePolicy" ≠ some (.str s)) ∧
    (∀ rp, rmd.lookup "RedrivePolicy" = some (.dict rp) →
      ∃ v, rp.lookup "deadLetterTargetArn" = some v))

/-- C6: `backup_sns` persists a `DLQARN` field for a subscription if and
only if the subscription carries a `RawMessageDelivery` field holding a
nested `RedrivePolicy` key, from whose `deadLetterTargetArn` the value is
taken; any subscription not matching this exact shape is persisted
without DLQ metadata. -/
theorem backup_sns_dlq_condition (topic : String) (subscription : SubDict)
    (hwf : SubWF subscription)
    (hsa : ∃ v, subscription.lookup "SubscriptionArn" = some v)
    (hpr : ∃ v, subscription.lookup "Protocol" = some v)
    (hep : ∃ v, subscription.lookup "Endpoint" = some v) :
    ∃ rec, mkSubRecord topic subscription = .ok rec ∧
      ((rec.lookup "DLQARN").isSome ↔ hasNestedRedrive subscription) ∧
      (∀ rmd rp v,
        subscription.lookup "RawMessageDelivery" = some (.dict rmd) →
        rmd.lookup "RedrivePolicy" = some (.dict rp) →
        rp.lookup "deadLetterTargetArn" = some v →
        rec.lookup "DLQARN" = some v) := by
  obtain ⟨v1, h1⟩ := hsa
  obtain ⟨v2, h2⟩ := hpr
  obtain ⟨v3, h3⟩ := hep
  cases hr : subscription.lookup "RawMessageDelivery" with
  | none =>
    have hrec : mkSubRecord topic subscription =
        .ok [("topicARN", .str topic), ("subARN", v1), ("protocol", v2),
             ("endpoint", v3)] := by
      unfold mkSubRecord dictGet
      simp only [h1, h2, h3, hr]
    refine ⟨_, hrec, ?_, ?_⟩
    · constructor
      · intro h
        simp [List.lookup] at h
      · rintro ⟨rmd, rp, hrm, -⟩
        rw [hr] at hrm
        cases hrm
    · intro rmd rp v hrm
      cases hrm
  | some val =>
    cases val with
    | str s =>
      have hin : pyIn "RedrivePolicy" (.str s) = false := by
        simp [pyIn, hwf.1 s hr]
      have hrec : mkSubRecord topic subscription =
          .ok [("topicARN", .str topic), ("subARN", v1), ("protocol", v2),
               ("endpoint", v3)] := by
        unfold mkSubRecord dictGet
        simp only [h1, h2, h3, hr, hin, Bool.false_eq_true, if_false]
      refine ⟨_, hrec, ?_, ?_⟩
      · constructor
        · intro h
          simp [List.lookup] at h
        · rintro ⟨rmd, rp, hrm, -⟩
          rw [hr] at hrm
          simp at hrm
      · intro rmd rp v hrm
        simp at hrm
    | dict rmd =>
      have hwf2 := hwf.2 rmd hr
      cases hrp : rmd.lookup "RedrivePolicy" with
      | none =>
        have hin : pyIn "RedrivePolicy" (.dict rmd) = false := by
          simp [pyIn, hrp]
        have hrec : mkSubRecord topic subscription =
            .ok [("topicARN", .str topic), ("subARN", v1), ("protocol", v2),
                 ("endpoint", v3)] := by
          unfold mkSubRecord dictGet
          simp only [h1, h2, h3, hr, hin, Bool.false_eq_true, if_false]
        refine ⟨_, hrec, ?_, ?_⟩
        · constructor
          · intro h
            simp [List.lookup] at h
          · rintro ⟨rmd', rp, hrm, hrp'⟩
            rw [hr] at hrm
            simp at hrm
            subst hrm
            rw [hrp] at hrp'
            cases hrp'
        · intro rmd' rp v hrm hrp'
          simp at hrm
          subst hrm
          rw [hrp] at hrp'
          cases hrp'
      | some rp =>
        cases rp with
        | str s2 => exact absurd hrp (hwf2.1 s2)
        | dict rpd =>
          obtain ⟨v, hv⟩ := hwf2.2 rpd hrp
          have hin : pyIn "RedrivePolicy" (.dict rmd) = true := by
            simp [pyIn, hrp]
          have hrec : mkSubRecord topic subscription =
              .ok [("topicARN", .str topic), ("subARN", v1), ("protocol", v2),
                   ("endpoint", v3), ("DLQARN", v)] := by
            unfold mkSubRecord pyGet dictGet
            simp only [h1, h2, h3, hr, hin, if_true, hrp, hv]
            rfl
          refine ⟨_, hrec, ?_, ?_⟩
          · constructor
            · intro _
              exact ⟨rmd, .dict rpd, hr, hrp⟩
            · intro _
              simp [List.lookup]
          · intro rmd' rp' v' hrm hrp'' hv''
            simp at hrm
            subst hrm
            rw [hrp] at hrp''
            simp at hrp''
            subst hrp''
            rw [hv] at hv''
            simp at hv''
            subst hv''
            simp [List.lookup]

/-- A sample subscription dict carrying the nested DLQ shape the source
probes for. -/
def sampleDLQSub : SubDict :=
  [("SubscriptionArn", PyVal.str "sa"), ("Protocol", PyVal.str "sqs"),
   ("Endpoint", PyVal.str "e"),
   ("RawMessageDelivery", PyVal.dict [("RedrivePolicy",
     PyVal.dict [("deadLetterTargetArn", PyVal.str "arn:dlq")])])]

/-- The sample subscription is well-formed for the DLQ probe. -/
theorem sampleDLQSub_wf : SubWF sampleDLQSub := by
  constructor
  · intro s h
    simp [sampleDLQSub, List.lookup] at h
  · intro rmd h
    simp [sampleDLQSub, List.lookup] at h
    subst h
    constructor
    · intro s2 h2
      simp [List.lookup] at h2
    · intro rp h2
      simp [List.lookup] at h2
      subst h2
      exact ⟨PyVal.str "arn:dlq", rfl⟩

/-- Witness for C6 at a subscription carrying the nested DLQ shape. -/
theorem backup_sns_dlq_condition_witness :
    ∃ rec, mkSubRecord "t" sampleDLQSub = .ok rec ∧
      ((rec.lookup "DLQARN").isSome ↔ hasNestedRedrive sampleDLQSub) ∧
      (∀ rmd rp v,
        sampleDLQSub.lookup "RawMessageDelivery" = some (.dict rmd) →
        rmd.lookup "RedrivePolicy" = some (.dict rp) →
        rp.lookup "deadLetterTargetArn" = some v →
        rec.lookup "DLQARN" = some v) :=
  backup_sns_dlq_condition "t" sampleDLQSub sampleDLQSub_wf
    ⟨PyVal.str "sa", rfl⟩ ⟨PyVal.str "sqs", rfl⟩ ⟨PyVal.str "e", rfl⟩

/-! ## Claim theorems: backup/restore SNS key mismatch -/

/-- A record built by `backup_sns` carries the lowercase keys
`topicARN` / `subARN` / `protocol` / `endpoint` (plus possibly `DLQARN`)
and never the capitalized `TopicARN` / `Protocol` / `Endpoint` that
`restore_sns` reads. -/
theorem mkSubRecord_capitalized_keys_absent (topic : String)
    (sub rec : SubDict) (h : mkSubRecord topic sub = .ok rec) :
    rec.lookup "TopicARN" = none ∧ rec.lookup "Protocol" = none ∧
    rec.lookup "Endpoint" = none := by
  unfold mkSubRecord at h
  repeat' split at h
  all_goals try cases h
  all_goals simp [List.lookup]

/-- C9: `backup_sns` persists records under the keys `topicARN`,
`subARN`, `protocol`, `endpoint`, while `restore_sns` reads `TopicARN`,
`Protocol`, `Endpoint`; so even with the membership test repaired,
restoring any record produced by `backup_sns` raises an uncaught
`KeyError 'TopicARN'`, both for the single subscribe attempt and for the
whole run. -/
theorem restore_sns_fixed_key_mismatch (d : Disk) (topics : List String)
    (topic : String) (sub rec : SubDict) (rest : List SubDict)
    (hrec : mkSubRecord topic sub = .ok rec)
    (ht : d.sns_topics = some topics) (hs : d.sns_subs = some (rec :: rest)) :
    subscribeCall rec = .error (.keyError "TopicARN") ∧
    (restore_sns_fixed d).2 = some (.keyError "TopicARN") := by
  have hTop := (mkSubRecord_capitalized_keys_absent topic sub rec hrec).1
  have hcall : subscribeCall rec = .error (.keyError "TopicARN") := by
    unfold subscribeCall dictGet
    by_cases hd : (rec.lookup "DLQARN").isSome
    · simp [hd, hTop]
    · simp [hd, hTop]
  refine ⟨hcall, ?_⟩
  unfold restore_sns_fixed
  rw [ht, hs]
  simp [subscribeLoop, hcall]

/-- Witness for C9 at a record actually produced by `backup_sns`'s
record builder. -/
theorem restore_sns_fixed_key_mismatch_witness :
    subscribeCall [("topicARN", PyVal.str "t"), ("subARN", PyVal.str "sa"),
      ("protocol", PyVal.str "sqs"), ("endpoint", PyVal.str "e")] =
      .error (.keyError "TopicARN") ∧
    (restore_sns_fixed
      { sns_topics := some ["arn:aws:sns:us-east-1:000000000000:t"],
        sns_subs := some [[("topicARN", PyVal.str "t"), ("subARN", PyVal.str "sa"),
          ("protocol", PyVal.str "sqs"), ("endpoint", PyVal.str "e")]] }).2 =
      some (.keyError "TopicARN") :=
  restore_sns_fixed_key_mismatch _ ["arn:aws:sns:us-east-1:000000000000:t"] "t"
    [("SubscriptionArn", PyVal.str "sa"), ("Protocol", PyVal.str "sqs"),
     ("Endpoint", PyVal.str "e")]
    [("topicARN", PyVal.str "t"), ("subARN", PyVal.str "sa"),
     ("protocol", PyVal.str "sqs"), ("endpoint", PyVal.str "e")]
    [] rfl rfl rfl

/-! ## Claim theorems: S3 backup/restore round trip -/

/-- With pairwise-distinct keys, fetching a listed object returns its
body. -/
theorem s3GetObject_eq_of_nodup (s : S3State) (bk : S3Bucket)
    (hfind : s.find? (fun y => y.name == bk.name) = some bk)
    (hkeys : (bk.objs.map S3Object.key).Nodup)
    (o : S3Object) (ho : o ∈ bk.objs) :
    s3GetObject s bk.name o.key = .ok o.body := by
  unfold s3GetObject
  simp only [hfind, find_self_of_nodup S3Object.key bk.objs hkeys o ho]

/-- The inner object loop returns exactly the records of the listing
when each fetch returns the listed body. -/
theorem backupBucketObjects_eq (s : S3State) (nm : String)
    (objs : List S3Object)
    (h : ∀ o ∈ objs, s3GetObject s nm o.key = .ok o.body) :
    backupBucketObjects s nm objs =
      .ok (objs.map (fun o => ⟨nm, o.key, o.body⟩)) := by
  induction objs with
  | nil => rfl
  | cons o t ih =>
    unfold backupBucketObjects
    simp only [h o (List.mem_cons_self o t),
      ih (fun x hx => h x (List.mem_cons_of_mem _ hx)), List.map_cons]

/-- The bucket loop of `backup_s3` returns the records of all buckets in
listing order, when bucket names are pairwise distinct, keys are
pairwise distinct per bucket, and no listed bucket is empty. -/
theorem collectS3Objects_eq (s : S3State)
    (hnd : (s.map S3Bucket.name).Nodup) (bs : List S3Bucket)
    (hsub : ∀ bk ∈ bs, bk ∈ s)
    (hne : ∀ bk ∈ bs, bk.objs ≠ [])
    (hkeys : ∀ bk ∈ bs, (bk.objs.map S3Object.key).Nodup) :
    collectS3Objects s bs =
      .ok (bs.flatMap (fun bk =>
        bk.objs.map (fun o => ⟨bk.name, o.key, o.body⟩))) := by
  induction bs with
  | nil => rfl
  | cons b t ih =>
    have hfind : s.find? (fun y => y.name == b.name) = some b :=
      find_self_of_nodup S3Bucket.name s hnd b (hsub b (List.mem_cons_self b t))
    have hne2 : b.objs.isEmpty = false := by
      cases hobjs : b.objs with
      | nil => exact absurd hobjs (hne b (List.mem_cons_self b t))
      | cons x xs => rfl
    have hobjs := backupBucketObjects_eq s b.name b.objs
      (fun o ho => s3GetObject_eq_of_nodup s b hfind
        (hkeys b (List.mem_cons_self b t)) o ho)
    have hrest := ih (fun x hx => hsub x (List.mem_cons_of_mem _ hx))
      (fun x hx => hne x (List.mem_cons_of_mem _ hx))
      (fun x hx => hkeys x (List.mem_cons_of_mem _ hx))
    unfold collectS3Objects s3ListObjectsContents
    simp only [hfind, hne2, Bool.false_eq_true, if_false, hobjs, hrest,
      List.flatMap_cons]

/-- `backup_s3`'s full effect under the same hypotheses: both snapshot
files are written and the run does not fault. -/
theorem backup_s3_eq (s : S3State) (d : Disk)
    (hnd : (s.map S3Bucket.name).Nodup)
    (hne : ∀ bk ∈ s, bk.objs ≠ [])
    (hkeys : ∀ bk ∈ s, (bk.objs.map S3Object.key).Nodup) :
    backup_s3 s d =
      ({ d with
          s3_buckets := some (s3ListBuckets s),
          s3_objects := some (s.flatMap (fun bk =>
            bk.objs.map (fun o => ⟨bk.name, o.key, o.body⟩))) }, none) := by
  unfold backup_s3
  simp only [collectS3Objects_eq s hnd s (fun _ h => h) hne hkeys]

/-- Creating pairwise-distinct fresh bucket names appends blank buckets
in order. -/
theorem foldl_createBucket_eq (names : List String) :
    ∀ (init : S3State),
      names.Nodup →
      (∀ n ∈ names, init.any (fun bk => bk.name == n) = false) →
      names.foldl s3CreateBucket init =
        init ++ names.map (fun n => ⟨n, []⟩) := by
  induction names with
  | nil => intro init _ _; simp
  | cons n t ih =>
    intro init hnd hfresh
    rw [List.nodup_cons] at hnd
    have hstep : s3CreateBucket init n = init ++ [⟨n, []⟩] := by
      unfold s3CreateBucket
      rw [hfresh n (List.mem_cons_self n t)]
      simp
    have hfresh' : ∀ m ∈ t, (init ++ [(⟨n, []⟩ : S3Bucket)]).any
        (fun bk => bk.name == m) = false := by
      intro m hm
      rw [List.any_append]
      have h1 := hfresh m (List.mem_cons_of_mem _ hm)
      have h2 : ((⟨n, []⟩ : S3Bucket).name == m) = false := by
        rw [beq_eq_false_iff_ne]
        intro he
        exact hnd.1 (by rw [show n = m from he]; exact hm)
      simp [h1, h2]
    rw [List.foldl_cons, hstep, ih _ hnd.2 hfresh']
    simp

/-- Putting records that do not target the head bucket leaves the head
untouched. -/
theorem putObjects_cons_frame (bk : S3Bucket) (rs : List ObjRecord) :
    ∀ (s : S3State),
      (∀ r ∈ rs, (bk.name == r.bucket_name) = false) →
      putObjects (bk :: s) rs = (putObjects s rs).map (fun s2 => bk :: s2) := by
  induction rs with
  | nil => intro s _; rfl
  | cons r t ih =>
    intro s h
    have hb := h r (List.mem_cons_self r t)
    unfold putObjects s3PutObject
    rw [List.any_cons, hb, Bool.false_or]
    cases hany : s.any (fun q => q.name == r.bucket_name) with
    | false => rfl
    | true =>
      simp only [List.map_cons, hb, Bool.false_eq_true, if_false]
      exact ih _ (fun x hx => h x (List.mem_cons_of_mem _ hx))

/-- Splitting a record list splits the restore loop. -/
theorem putObjects_append (a b : List ObjRecord) :
    ∀ (s : S3State),
      putObjects s (a ++ b) =
        match putObjects s a with
        | .error e => .error e
        | .ok s2 => putObjects s2 b := by
  induction a with
  | nil => intro s; rfl
  | cons r t ih =>
    intro s
    cases hput : s3PutObject s r.bucket_name r.object_key r.object_body with
    | error e => simp only [List.cons_append, putObjects, hput]
    | ok s1 =>
      simp only [List.cons_append, putObjects, hput]
      exact ih s1

/-- Replaying one bucket's records into its (partially filled) restored
bucket appends them, when keys are fresh and pairwise distinct and no
other bucket shares the name. -/
theorem putObjects_fill (nm : String) (objs : List S3Object) :
    ∀ (acc : List S3Object) (s : S3State),
      (objs.map S3Object.key).Nodup →
      (∀ o ∈ objs, acc.any (fun a => a.key == o.key) = false) →
      (∀ q ∈ s, (q.name == nm) = false) →
      putObjects (⟨nm, acc⟩ :: s)
          (objs.map (fun o => ⟨nm, o.key, o.body⟩)) =
        .ok (⟨nm, acc ++ objs⟩ :: s) := by
  induction objs with
  | nil => intro acc s _ _ _; simp [putObjects]
  | cons o t ih =>
    intro acc s hnd hfresh hs
    rw [List.map_cons] at *
    rw [List.nodup_cons] at hnd
    have hkey : acc.any (fun a => a.key == o.key) = false :=
      hfresh o (List.mem_cons_self o t)
    have hput : s3PutObject ((⟨nm, acc⟩ : S3Bucket) :: s) nm o.key o.body =
        .ok (⟨nm, acc ++ [o]⟩ :: s) := by
      unfold s3PutObject
      rw [List.any_cons]
      simp only [beq_self_eq_true, Bool.true_or, if_true, List.map_cons,
        beq_self_eq_true, if_pos]
      rw [list_map_id _ s (fun q hq => by simp [hs q hq])]
      unfold s3PutKey
      rw [hkey]
      rfl
    have hfresh' : ∀ x ∈ t, (acc ++ [o]).any (fun a => a.key == x.key) = false := by
      intro x hx
      rw [List.any_append]
      have h1 := hfresh x (List.mem_cons_of_mem _ hx)
      have h2 : (o.key == x.key) = false := by
        rw [beq_eq_false_iff_ne]
        intro he
        exact hnd.1 (by rw [he]; exact List.mem_map_of_mem S3Object.key hx)
      simp [h1, h2]
    show putObjects ((⟨nm, acc⟩ : S3Bucket) :: s) _ = _
    unfold putObjects
    simp only [hput]
    rw [ih (acc ++ [o]) s hnd.2 hfresh' hs]
    simp

/-- Replaying all records of an environment into its blank restored
buckets reproduces the environment exactly. -/
theorem putObjects_blank :
    ∀ (s : S3State),
      (s.map S3Bucket.name).Nodup →
      (∀ bk ∈ s, (bk.objs.map S3Object.key).Nodup) →
      putObjects (s.map (fun bk => ⟨bk.name, []⟩))
          (s.flatMap (fun bk =>
            bk.objs.map (fun o => ⟨bk.name, o.key, o.body⟩))) = .ok s := by
  intro s
  induction s with
  | nil => intro _ _; rfl
  | cons bk t ih =>
    intro hnd hkeys
    rw [List.map_cons, List.nodup_cons] at hnd
    rw [List.map_cons, List.flatMap_cons, putObjects_append]
    have hblanks : ∀ q ∈ t.map (fun b2 => (⟨b2.name, []⟩ : S3Bucket)),
        (q.name == bk.name) = false := by
      intro q hq
      obtain ⟨q0, hq0, rfl⟩ := List.mem_map.mp hq
      rw [beq_eq_false_iff_ne]
      intro he
      exact hnd.1 (by rw [← he]; exact List.mem_map.mpr ⟨q0, hq0, rfl⟩)
    have hfill := putObjects_fill bk.name bk.objs []
      (t.map (fun b2 => ⟨b2.name, []⟩))
      (hkeys bk (List.mem_cons_self bk t)) (fun o _ => rfl) hblanks
    rw [hfill]
    have hrecs : ∀ r ∈ t.flatMap (fun b2 =>
        b2.objs.map (fun o => (⟨b2.name, o.key, o.body⟩ : ObjRecord))),
        (bk.name == r.bucket_name) = false := by
      intro r hr
      obtain ⟨b2, hb2, hr2⟩ := List.mem_flatMap.mp hr
      obtain ⟨o, _, rfl⟩ := List.mem_map.mp hr2
      rw [beq_eq_false_iff_ne]
      intro he
      exact hnd.1 (by rw [he]; exact List.mem_map.mpr ⟨b2, hb2, rfl⟩)
    have hframe := putObjects_cons_frame bk
      (t.flatMap (fun b2 =>
        b2.objs.map (fun o => (⟨b2.name, o.key, o.body⟩ : ObjRecord))))
      (t.map (fun b2 => ⟨b2.name, []⟩)) hrecs
    show putObjects (bk :: t.map (fun b2 => ⟨b2.name, []⟩)) _ = _
    rw [hframe, ih hnd.2 (fun x hx => hkeys x (List.mem_cons_of_mem _ hx))]
    rfl

/-- C1 (amended): for every storage environment whose bucket names are
pairwise distinct, whose object keys are pairwise distinct within each
bucket (invariants of the storage service), and in which every bucket
holds at least one object, running `backup_s3` and then `restore_s3`
against an empty target reproduces the environment exactly: the same
buckets with byte-for-byte identical keys and bodies. -/
theorem s3Roundtrip_restores_environment (s : S3State)
    (hnd : (s.map S3Bucket.name).Nodup)
    (hne : ∀ bk ∈ s, bk.objs ≠ [])
    (hkeys : ∀ bk ∈ s, (bk.objs.map S3Object.key).Nodup) :
    s3Roundtrip s = .ok s := by
  have hb := backup_s3_eq s Disk.empty hnd hne hkeys
  unfold s3Roundtrip
  rw [hb]
  cases s with
  | nil => rfl
  | cons bk t =>
    have hnames : (s3ListBuckets (bk :: t)).Nodup := hnd
    have hcreate := foldl_createBucket_eq (s3ListBuckets (bk :: t)) []
      hnames (fun n _ => rfl)
    have hmaps : (s3ListBuckets (bk :: t)).map (fun n => (⟨n, []⟩ : S3Bucket)) =
        (bk :: t).map (fun b2 => ⟨b2.name, []⟩) := by
      unfold s3ListBuckets
      rw [List.map_map]
      rfl
    have hput := putObjects_blank (bk :: t) hnd hkeys
    unfold restore_s3
    simp only [List.nil_append] at hcreate
    rw [hmaps] at hcreate
    simp only [hcreate, hput]
    rfl

/-- Counterexample for C1 as stated: a storage environment holding one
bucket with zero objects makes the backup/restore pipeline raise
`KeyError 'Contents'` instead of reproducing the environment. -/
theorem s3Roundtrip_counterexample :
    s3Roundtrip [⟨"b", []⟩] = .error (.keyError "Contents") ∧
    s3Roundtrip [⟨"b", []⟩] ≠ .ok [⟨"b", []⟩] :=
  ⟨rfl, fun h => Except.noConfusion h⟩

/-- Witness for the amended C1 at a two-bucket environment. -/
theorem s3Roundtrip_restores_environment_witness :
    s3Roundtrip [⟨"b", [⟨"k", [1, 2]⟩, ⟨"j", [3]⟩]⟩, ⟨"c", [⟨"k", [9]⟩]⟩] =
      .ok [⟨"b", [⟨"k", [1, 2]⟩, ⟨"j", [3]⟩]⟩, ⟨"c", [⟨"k", [9]⟩]⟩] :=
  s3Roundtrip_restores_environment
    [⟨"b", [⟨"k", [1, 2]⟩, ⟨"j", [3]⟩]⟩, ⟨"c", [⟨"k", [9]⟩]⟩]
    (by decide) (by decide) (by decide)
